import Mathlib

/-!
# Verification of `financial-data-utils`

Shallow embedding of the repository's three source files:

* `src/utils.py`   — pure tabular helpers (`get_pivots`, `get_average_volume`,
  `get_sma_col`, `build_sma_df`);
* `src/qtrade.py`  — the `Questrade` brokerage client (token lifecycle,
  symbol search, candle requests);
* `src/avantage.py` — the `alphavantage` market-data client (`get_sma`).

Python numbers are modelled by `ℚ` (the claims under study involve only exact
decimal data, no rounding), Python lists by `List`, Python dicts by insertion
ordered association lists, and Python exceptions by an explicit `PyErr` value
in `Except`.  A pandas column that may hold `NaN` is a `List (Option ℚ)` with
`none` for `NaN`.
-/

/-- The Python exceptions the embedded code can raise, by constructor and
payload, mirroring `raise ValueError(msg)`, `KeyError(key)`, `IndexError`,
`AttributeError` and `json.JSONDecodeError` in the sources. -/
inductive PyErr where
  | valueError (msg : String)
  | keyError (key : String)
  | indexError (msg : String)
  | attributeError (nm : String)
  | jsonDecodeError
  deriving DecidableEq, Repr

/-! ## `src/utils.py`: pivots and average volume -/

/-- Python's builtin `min` on a list of numbers: the leftmost minimum of a
non-empty list (a left fold of binary `min`), `ValueError` on an empty one.
`List.min?` is definitionally that left fold. -/
def pyMin (l : List ℚ) : Except PyErr ℚ :=
  match l.min? with
  | some v => .ok v
  | none => .error (.valueError "min() arg is an empty sequence")

/-- Python's builtin `max`, dually. -/
def pyMax (l : List ℚ) : Except PyErr ℚ :=
  match l.max? with
  | some v => .ok v
  | none => .error (.valueError "max() arg is an empty sequence")

/-- Python's `list.index(v)`: index of the first element equal to `v`,
`ValueError` when `v` does not occur. -/
def pyIndex (l : List ℚ) (v : ℚ) : Except PyErr Nat :=
  match l.findIdx? (fun x => x = v) with
  | some i => .ok i
  | none => .error (.valueError "x is not in list")

/-- `utils.get_pivots(low_list, high_list, n_periods)`:

    tmp_low = min(low_list[:n_periods])
    tmp_low_days = low_list[:n_periods].index(tmp_low)
    tmp_high = max(high_list[:n_periods])
    tmp_high_days = high_list[:n_periods].index(tmp_high)
    return ((tmp_low, tmp_low_days), (tmp_high, tmp_high_days))

Python's slice `l[:n]` is `List.take n`, which silently truncates when
`n > len(l)`. -/
def get_pivots (low_list high_list : List ℚ) (n_periods : Nat) :
    Except PyErr ((ℚ × Nat) × (ℚ × Nat)) := do
  let tmp_low ← pyMin (low_list.take n_periods)
  let tmp_low_days ← pyIndex (low_list.take n_periods) tmp_low
  let tmp_high ← pyMax (high_list.take n_periods)
  let tmp_high_days ← pyIndex (high_list.take n_periods) tmp_high
  return ((tmp_low, tmp_low_days), (tmp_high, tmp_high_days))

/-- `np.mean` over a list: the arithmetic mean, or `NaN` (here `none`) for an
empty list — NumPy warns but does not raise. -/
def npMean (l : List ℚ) : Option ℚ :=
  match l with
  | [] => none
  | _ => some (l.sum / l.length)

/-- `utils.get_average_volume(volume_list, n_periods)`:
`return np.mean(volume_list[:n_periods])`. -/
def get_average_volume (volume_list : List ℚ) (n_periods : Nat) : Option ℚ :=
  npMean (volume_list.take n_periods)

/-! ### Helper lemmas on the Python primitives -/

/-- `pyMin` on a non-empty list returns a member that bounds every element
from below. -/
theorem pyMin_ok_of_ne_nil {l : List ℚ} (h : l ≠ []) :
    ∃ v, pyMin l = .ok v ∧ v ∈ l ∧ ∀ x ∈ l, v ≤ x := by
  cases hm : l.min? with
  | none => exact absurd (List.min?_eq_none_iff.mp hm) h
  | some v =>
    refine ⟨v, by simp [pyMin, hm], List.min?_mem min_choice hm, ?_⟩
    exact (List.le_min?_iff (fun a b c => le_min_iff) hm).mp (le_refl v)

/-- `pyMax` on a non-empty list returns a member that bounds every element
from above. -/
theorem pyMax_ok_of_ne_nil {l : List ℚ} (h : l ≠ []) :
    ∃ v, pyMax l = .ok v ∧ v ∈ l ∧ ∀ x ∈ l, x ≤ v := by
  cases hm : l.max? with
  | none => exact absurd (List.max?_eq_none_iff.mp hm) h
  | some v =>
    refine ⟨v, by simp [pyMax, hm], List.max?_mem max_choice hm, ?_⟩
    exact (List.max?_le_iff (fun a b c => max_le_iff) hm).mp (le_refl v)

/-- `pyIndex` on a member returns the position of its first occurrence. -/
theorem pyIndex_ok_of_mem {l : List ℚ} {v : ℚ} (h : v ∈ l) :
    ∃ i, pyIndex l v = .ok i ∧ i < l.length ∧ l.getD i 0 = v ∧
      ∀ j, j < i → l.getD j 0 ≠ v := by
  have hf := List.findIdx?_eq_some_of_exists (p := fun x => x = v) ⟨v, h, by simp⟩
  obtain ⟨hlt, hp, hprev⟩ := List.findIdx?_eq_some_iff_getElem.mp hf
  refine ⟨l.findIdx (fun x => x = v), by simp [pyIndex, hf], hlt, ?_, ?_⟩
  · rw [List.getD_eq_getElem l 0 hlt]
    simpa using hp
  · intro j hj
    rw [List.getD_eq_getElem l 0 (Nat.lt_trans hj hlt)]
    simpa using hprev j hj

/-! ### Claims C1 and C2 -/

/-- C1 (counterexample): the claim says that for `n` greater than the list
length, `get_pivots` and `get_average_volume` fail with
`InsufficientDataError`.  At the concrete input `low_list = [1]`,
`high_list = [2]`, `volume_list = [4]`, `n = 5` both succeed instead:
Python's slice `l[:n]` silently truncates, no error is raised, and no
`InsufficientDataError` exists anywhere in the repository. -/
theorem c1_counterexample :
    get_pivots [1] [2] 5 = .ok ((1, 0), (2, 0)) ∧
    get_average_volume [4] 5 = some 4 := ⟨rfl, by norm_num [get_average_volume, npMean]⟩

/-- C1 (amended): for every `n` greater than the length of each (non-empty)
list, `get_pivots` and `get_average_volume` silently truncate to the elements
that exist: `get_pivots` succeeds and returns the extrema of the whole lists
and `get_average_volume` returns the mean of the whole volume list; neither
raises any error. -/
theorem c1_truncation (lo hi vol : List ℚ) (n : Nat)
    (hlo : lo ≠ []) (hhi : hi ≠ [])
    (h1 : lo.length < n) (h2 : hi.length < n) (h3 : vol.length < n) :
    (∃ vl il vh ih,
      get_pivots lo hi n = .ok ((vl, il), (vh, ih)) ∧
      pyMin lo = .ok vl ∧ pyIndex lo vl = .ok il ∧
      pyMax hi = .ok vh ∧ pyIndex hi vh = .ok ih) ∧
    get_average_volume vol n = npMean vol := by
  have elo : lo.take n = lo := List.take_of_length_le (le_of_lt h1)
  have ehi : hi.take n = hi := List.take_of_length_le (le_of_lt h2)
  obtain ⟨vl, hvl, hmeml, _⟩ := pyMin_ok_of_ne_nil hlo
  obtain ⟨il, hil, _, _, _⟩ := pyIndex_ok_of_mem hmeml
  obtain ⟨vh, hvh, hmemh, _⟩ := pyMax_ok_of_ne_nil hhi
  obtain ⟨ih, hih, _, _, _⟩ := pyIndex_ok_of_mem hmemh
  refine ⟨⟨vl, il, vh, ih, ?_, hvl, hil, hvh, hih⟩, ?_⟩
  · simp [get_pivots, elo, ehi, hvl, hil, hvh, hih, Bind.bind, Except.bind,
      Functor.map, Except.map, Pure.pure, Except.pure]
  · simp [get_average_volume, List.take_of_length_le (le_of_lt h3)]

/-- C1 (witness for the amended theorem) at `lo = [1]`, `hi = [2]`,
`vol = [4]`, `n = 5`. -/
theorem c1_truncation_witness :
    (∃ vl il vh ih,
      get_pivots [1] [2] 5 = .ok ((vl, il), (vh, ih)) ∧
      pyMin [1] = .ok vl ∧ pyIndex [1] vl = .ok il ∧
      pyMax [2] = .ok vh ∧ pyIndex [2] vh = .ok ih) ∧
    get_average_volume [4] 5 = npMean [4] :=
  c1_truncation [1] [2] [4] 5 (by simp) (by simp) (by simp) (by simp) (by simp)

/-- C2: for `1 ≤ n ≤ len`, `get_pivots` returns the minimum of the first `n`
lows and the maximum of the first `n` highs, each paired with the 0-based
position of its first occurrence within those first `n` elements. -/
theorem c2_get_pivots_correct (lo hi : List ℚ) (n : Nat)
    (hn : 1 ≤ n) (hlo : n ≤ lo.length) (hhi : n ≤ hi.length) :
    ∃ vl il vh ih,
      get_pivots lo hi n = .ok ((vl, il), (vh, ih)) ∧
      vl ∈ lo.take n ∧ (∀ x ∈ lo.take n, vl ≤ x) ∧
      il < n ∧ (lo.take n).getD il 0 = vl ∧
      (∀ j, j < il → (lo.take n).getD j 0 ≠ vl) ∧
      vh ∈ hi.take n ∧ (∀ x ∈ hi.take n, x ≤ vh) ∧
      ih < n ∧ (hi.take n).getD ih 0 = vh ∧
      (∀ j, j < ih → (hi.take n).getD j 0 ≠ vh) := by
  have hlenl : (lo.take n).length = n := by
    rw [List.length_take]; exact min_eq_left hlo
  have hlenh : (hi.take n).length = n := by
    rw [List.length_take]; exact min_eq_left hhi
  have hnel : lo.take n ≠ [] := by
    intro h; rw [h] at hlenl; simp at hlenl; omega
  have hneh : hi.take n ≠ [] := by
    intro h; rw [h] at hlenh; simp at hlenh; omega
  obtain ⟨vl, hvl, hmeml, hbndl⟩ := pyMin_ok_of_ne_nil hnel
  obtain ⟨il, hil, hill, higl, hprevl⟩ := pyIndex_ok_of_mem hmeml
  obtain ⟨vh, hvh, hmemh, hbndh⟩ := pyMax_ok_of_ne_nil hneh
  obtain ⟨ih, hih, hilh, high, hprevh⟩ := pyIndex_ok_of_mem hmemh
  refine ⟨vl, il, vh, ih, ?_, hmeml, hbndl, ?_, higl, hprevl,
    hmemh, hbndh, ?_, high, hprevh⟩
  · simp [get_pivots, hvl, hil, hvh, hih, Bind.bind, Except.bind,
      Functor.map, Except.map, Pure.pure, Except.pure]
  · rw [hlenl] at hill; exact hill
  · rw [hlenh] at hilh; exact hilh

/-- C2 (witness) at `lo = [3, 1, 2]`, `hi = [5, 9, 9]`, `n = 3`. -/
theorem c2_get_pivots_correct_witness :
    ∃ vl il vh ih,
      get_pivots [3, 1, 2] [5, 9, 9] 3 = .ok ((vl, il), (vh, ih)) ∧
      vl ∈ ([3, 1, 2] : List ℚ).take 3 ∧ (∀ x ∈ ([3, 1, 2] : List ℚ).take 3, vl ≤ x) ∧
      il < 3 ∧ (([3, 1, 2] : List ℚ).take 3).getD il 0 = vl ∧
      (∀ j, j < il → (([3, 1, 2] : List ℚ).take 3).getD j 0 ≠ vl) ∧
      vh ∈ ([5, 9, 9] : List ℚ).take 3 ∧ (∀ x ∈ ([5, 9, 9] : List ℚ).take 3, x ≤ vh) ∧
      ih < 3 ∧ (([5, 9, 9] : List ℚ).take 3).getD ih 0 = vh ∧
      (∀ j, j < ih → (([5, 9, 9] : List ℚ).take 3).getD j 0 ≠ vh) :=
  c2_get_pivots_correct [3, 1, 2] [5, 9, 9] 3 (by simp) (by simp) (by simp)

/-! ## `src/avantage.py`: the alphavantage market-data client

The HTTP transport is external; the response delivered to `get_sma` is the
parsed JSON body, a Python dict modelled as an insertion-ordered association
list.  An alphavantage SMA payload nests
`{"Technical Analysis: SMA": {date: {"SMA": "<value>"}, ...}, ...}`. -/

/-- A `{"SMA": "<value>"}` JSON object: string keys to string values. -/
abbrev SmaEntry := List (String × String)

/-- The value under `"Technical Analysis: SMA"`: date string to `SmaEntry`. -/
abbrev SmaDict := List (String × SmaEntry)

/-- Python's `d[k]` on a dict: the value at `k`, `KeyError(k)` when absent. -/
def pyDictGet {α : Type} (d : List (String × α)) (k : String) : Except PyErr α :=
  match d.find? (fun kv => kv.1 = k) with
  | some kv => .ok kv.2
  | none => .error (.keyError k)

/-- `alphavantage.get_sma(...)`, after the HTTP GET and `.json()` parse:
`return resp['Technical Analysis: SMA']`. -/
def get_sma (resp : List (String × SmaDict)) : Except PyErr SmaDict :=
  pyDictGet resp "Technical Analysis: SMA"

/-- `pyDictGet` raises `KeyError k` exactly when `k` is not among the keys. -/
theorem pyDictGet_eq_error {α : Type} (d : List (String × α)) (k : String)
    (h : k ∉ d.map Prod.fst) : pyDictGet d k = .error (.keyError k) := by
  have hf : d.find? (fun kv => kv.1 = k) = none := by
    rw [List.find?_eq_none]
    intro kv hkv
    simp only [decide_eq_true_eq]
    intro he
    exact h (he ▸ List.mem_map_of_mem Prod.fst hkv)
  simp [pyDictGet, hf]

/-- `pyDictGet` returns the value of the first binding of `k`. -/
theorem pyDictGet_eq_ok {α : Type} (pre post : List (String × α)) (k : String) (v : α)
    (h : k ∉ pre.map Prod.fst) :
    pyDictGet (pre ++ (k, v) :: post) k = .ok v := by
  have hpre : pre.find? (fun kv => kv.1 = k) = none := by
    rw [List.find?_eq_none]
    intro kv hkv
    simp only [decide_eq_true_eq]
    intro he
    exact h (he ▸ List.mem_map_of_mem Prod.fst hkv)
  have hcons : ((k, v) :: post).find? (fun kv => kv.1 = k) = some (k, v) :=
    List.find?_cons_of_pos post (by simp)
  simp [pyDictGet, List.find?_append, hpre, hcons]

/-! ### Claim C8 -/

/-- C8: `get_sma` fails with `KeyError "Technical Analysis: SMA"` — the
`ResponseShapeError` of the spec's taxonomy, reflecting the absent key —
whenever the payload lacks that key, and returns exactly the value stored
under the (first binding of the) key when it is present. -/
theorem c8_get_sma_shape (resp : List (String × SmaDict)) :
    ("Technical Analysis: SMA" ∉ resp.map Prod.fst →
      get_sma resp = .error (.keyError "Technical Analysis: SMA")) ∧
    (∀ pre v post,
      resp = pre ++ ("Technical Analysis: SMA", v) :: post →
      "Technical Analysis: SMA" ∉ pre.map Prod.fst →
      get_sma resp = .ok v) := by
  constructor
  · intro h
    exact pyDictGet_eq_error resp "Technical Analysis: SMA" h
  · intro pre v post hresp h
    rw [hresp]
    exact pyDictGet_eq_ok pre post "Technical Analysis: SMA" v h

/-- C8 (witness): a payload with an error note but no
`"Technical Analysis: SMA"` key fails, and one carrying the key returns its
value. -/
theorem c8_get_sma_shape_witness :
    get_sma [("Error Message", [])] = .error (.keyError "Technical Analysis: SMA") ∧
    get_sma [("Meta Data", []), ("Technical Analysis: SMA", [("2020-01-01", [("SMA", "1.0")])])] =
      .ok [("2020-01-01", [("SMA", "1.0")])] :=
  ⟨(c8_get_sma_shape [("Error Message", [])]).1 (by simp),
   (c8_get_sma_shape _).2 [("Meta Data", [])] _ [] rfl (by simp)⟩

/-! ## `src/utils.py`: `build_sma_df` -/

/-- Numeric value of a list of decimal digit characters. -/
def digitsVal (cs : List Char) : ℚ :=
  ((cs.foldl (fun acc c => 10 * acc + (c.toNat - 48)) 0 : Nat) : ℚ)

/-- Python's `float(s)` on the decimal strings alphavantage produces:
optional sign, integer digits, optional `.` and fraction digits
(`"1.0"`, `"-12.25"`, `".5"`, `"7"`).  Any other string raises `ValueError`
(exponent forms, which do not occur in this data, are out of the modelled
domain and also map to the error). -/
def pyFloat (s : String) : Except PyErr ℚ :=
  let err : Except PyErr ℚ :=
    .error (.valueError ("could not convert string to float: " ++ s))
  let cs := s.data
  let sign : ℚ := if cs.head? = some '-' then -1 else 1
  let rest := if cs.head? = some '-' ∨ cs.head? = some '+' then cs.tail else cs
  let intPart := rest.takeWhile Char.isDigit
  let after := rest.dropWhile Char.isDigit
  if after = [] then
    if intPart = [] then err else .ok (sign * digitsVal intPart)
  else if after.head? = some '.' ∧ after.tail.all Char.isDigit ∧
      ¬(intPart = [] ∧ after.tail = []) then
    .ok (sign * (digitsVal intPart + digitsVal after.tail / (10 : ℚ) ^ after.tail.length))
  else err

/-- One row of the dataframe `build_sma_df` assembles: columns `ticker`,
`date`, `gapping_date` and `SMA_{sma_days}` (the latter's label does not
affect the row's data). -/
structure SmaRow where
  ticker : String
  date : String
  gapping_date : String
  sma : ℚ
  deriving DecidableEq, Repr

/-- `utils.build_sma_df(sma_dict, sma_days, ticker, gapping_date)`:

    dates_list = list(sma_dict.keys())
    ticker_list = [ticker ...]; gapping_date_list = [gapping_date ...]
    sma_vals = [float(tmp['SMA']) for tmp in sma_dict.values()]
    df = pd.DataFrame(list(zip(ticker_list, dates_list, gapping_date_list, sma_vals)), ...)
    df = df[df['date'] != gapping_date]
    return df

The dict is the insertion-ordered association list of an alphavantage
`SmaDict`; the comprehension's `float(tmp['SMA'])` can raise `KeyError` or
`ValueError`. -/
def build_sma_df (sma_dict : List (String × SmaEntry)) (sma_days ticker gapping_date : String) :
    Except PyErr (List SmaRow) := do
  let dates_list := sma_dict.map Prod.fst
  let sma_vals ← sma_dict.mapM (fun tmp => do
    let sv ← pyDictGet tmp.2 "SMA"
    pyFloat sv)
  let rows := (dates_list.zip sma_vals).map
    (fun dv => SmaRow.mk ticker dv.1 gapping_date dv.2)
  return rows.filter (fun r => r.date ≠ gapping_date)

/-- A `mapM` into `Except` whose body succeeds on every element succeeds,
with one output per input. -/
theorem mapM_ok_of_forall {α β : Type} (f : α → Except PyErr β) :
    ∀ l : List α, (∀ a ∈ l, ∃ b, f a = .ok b) →
      ∃ bs, l.mapM f = .ok bs ∧ bs.length = l.length := by
  intro l
  induction l with
  | nil => exact fun _ => ⟨[], rfl, rfl⟩
  | cons a as ihq =>
    intro h
    obtain ⟨b, hb⟩ := h a (by simp)
    obtain ⟨bs, hbs, hlen⟩ := ihq (fun x hx => h x (by simp [hx]))
    refine ⟨b :: bs, ?_, by simp [hlen]⟩
    rw [List.mapM_cons, hb, hbs]
    rfl

/-! ### Claim C5 -/

/-- Projecting the dates out of assembled-and-filtered rows recovers the
filtered key list. -/
theorem map_date_filter (ticker gap : String) :
    ∀ l : List (String × ℚ),
      ((l.map (fun dv => SmaRow.mk ticker dv.1 gap dv.2)).filter
        (fun r => r.date ≠ gap)).map SmaRow.date
      = (l.map Prod.fst).filter (fun d => d ≠ gap) := by
  intro l
  induction l with
  | nil => rfl
  | cons a as ihq =>
    simp only [ne_eq, decide_not] at ihq
    by_cases h : a.1 = gap <;>
      simp [List.filter_cons, ihq, h]

/-- C5: `build_sma_df` turns each dict entry into a row carrying the given
ticker and gapping (reference) date, then keeps exactly the rows whose date
differs from the gapping date: the row dates are, in order, the dict keys
other than the gapping date, and every surviving row has a date different
from it. -/
theorem c5_build_sma_df (entries : List (String × SmaEntry)) (sma_days ticker gap : String)
    (hvals : ∀ e ∈ entries,
      ∃ q, (do
        let sv ← pyDictGet e.2 "SMA"
        pyFloat sv : Except PyErr ℚ) = .ok q) :
    ∃ rows, build_sma_df entries sma_days ticker gap = .ok rows ∧
      rows.map SmaRow.date = (entries.map Prod.fst).filter (fun d => d ≠ gap) ∧
      ∀ r ∈ rows, r.ticker = ticker ∧ r.gapping_date = gap ∧ r.date ≠ gap := by
  obtain ⟨vals, hmap, hlen⟩ := mapM_ok_of_forall _ entries hvals
  refine ⟨(((entries.map Prod.fst).zip vals).map
      (fun dv => SmaRow.mk ticker dv.1 gap dv.2)).filter (fun r => r.date ≠ gap),
    ?_, ?_, ?_⟩
  · simp only [build_sma_df, hmap]
    rfl
  · rw [map_date_filter]
    congr 1
    exact List.map_fst_zip _ _ (by rw [List.length_map, hlen])
  · intro r hr
    have hp := List.of_mem_filter hr
    have hr0 := List.mem_of_mem_filter hr
    simp only [List.mem_map] at hr0
    obtain ⟨dv, _, rfl⟩ := hr0
    exact ⟨rfl, rfl, by simpa using hp⟩

/-- C5 (witness): the spec's concrete instance
`{'2020-01-01': {'SMA': '1.0'}, '2020-01-02': {'SMA': '2.0'}}` with ticker
`'AAPL'` and gapping date `'2020-01-02'`. -/
theorem c5_build_sma_df_witness :
    ∃ rows, build_sma_df
        [("2020-01-01", [("SMA", "1.0")]), ("2020-01-02", [("SMA", "2.0")])]
        "20" "AAPL" "2020-01-02" = .ok rows ∧
      rows.map SmaRow.date =
        (([("2020-01-01", [("SMA", "1.0")]), ("2020-01-02", [("SMA", "2.0")])] :
            List (String × SmaEntry)).map Prod.fst).filter (fun d => d ≠ "2020-01-02") ∧
      ∀ r ∈ rows, r.ticker = "AAPL" ∧ r.gapping_date = "2020-01-02" ∧
        r.date ≠ "2020-01-02" :=
  c5_build_sma_df _ "20" "AAPL" "2020-01-02" (by
    intro e he
    simp only [List.mem_cons, List.mem_singleton] at he
    rcases he with rfl | rfl | h
    · exact ⟨1, by simp [pyDictGet, pyFloat, digitsVal, List.takeWhile, List.dropWhile,
        Bind.bind, Except.bind]⟩
    · exact ⟨2, by simp [pyDictGet, pyFloat, digitsVal, List.takeWhile, List.dropWhile,
        Bind.bind, Except.bind]⟩
    · cases h)

/-! ## `src/utils.py`: `get_sma_col` over a dataframe model

A pandas dataframe, as `get_sma_col` uses one: named columns of equal length
holding numbers or `NaN` (`none`).  `df.copy()` is value semantics here;
column assignment `new_df[name] = vals` replaces the column when the name
already exists and appends it at the right end otherwise. -/

/-- The dataframe: insertion-ordered named columns. -/
abbrev Df := List (String × List (Option ℚ))

/-- `name in df.columns`. -/
def dfHasCol (df : Df) (nm : String) : Bool :=
  df.any (fun c => c.1 = nm)

/-- `df[name]`: the column's values, `KeyError` when absent. -/
def dfGetCol (df : Df) (nm : String) : Except PyErr (List (Option ℚ)) :=
  pyDictGet df nm

/-- `df[name] = vals`: replace an existing column, else append a new one. -/
def dfSetCol (df : Df) (nm : String) (vals : List (Option ℚ)) : Df :=
  if dfHasCol df nm then df.map (fun c => if c.1 = nm then (nm, vals) else c)
  else df ++ [(nm, vals)]

/-- `Series.rolling(window=w).mean()` with pandas' default
`min_periods = w`: entry `i` is the mean of entries `i-w+1 .. i` when all
`w` of them exist and are numbers, `NaN` (`none`) otherwise — in particular
for `i < w-1`.  (pandas rejects `window=0`; the model is only ever applied
at `w ≥ 1`.) -/
def rollingMean (w : Nat) (vals : List (Option ℚ)) : List (Option ℚ) :=
  (List.range vals.length).map (fun i =>
    if w ≤ i + 1 then
      let win := (vals.drop (i + 1 - w)).take w
      if win.all Option.isSome then some (win.reduceOption.sum / w) else none
    else none)

/-- The f-string `f'{col_name}_SMA_{str(i)}'`. -/
def smaName (col_name : String) (i : Nat) : String :=
  col_name ++ "_SMA_" ++ toString i

/-- The `window` argument: `isinstance(window, int)` distinguishes a single
integer from a list of integers. -/
inductive PyIntOrList where
  | int (n : Nat)
  | list (ns : List Nat)

/-- The normalization `if isinstance(window, int): window = [window]`. -/
def windowList : PyIntOrList → List Nat
  | .int n => [n]
  | .list ns => ns

/-- `utils.get_sma_col(df, col_name, window)`:

    if isinstance(window, int): window = [window]
    new_df = df.copy()
    for i in window:
        new_df[f'{col_name}_SMA_{str(i)}'] = new_df[col_name].rolling(window=i).mean()
    return new_df

Each iteration reads `col_name` from the evolving `new_df` and assigns the
rolling-mean column. -/
def get_sma_col (df : Df) (col_name : String) (window : PyIntOrList) :
    Except PyErr Df :=
  (windowList window).foldlM (fun new_df i => do
    let base ← dfGetCol new_df col_name
    return dfSetCol new_df (smaName col_name i) (rollingMean i base)) df

/-! ### Dataframe lemmas -/

/-- `reduceOption` undoes `map some`. -/
theorem reduceOption_map_some_eq (us : List ℚ) : (us.map some).reduceOption = us := by
  induction us with
  | nil => rfl
  | cons a as ihq => simp [List.reduceOption_cons_of_some, ihq]

/-- Extending a dataframe on the right preserves existing column lookups. -/
theorem dfGetCol_append {df : Df} {nm : String} {vs : List (Option ℚ)} (rest : Df)
    (h : dfGetCol df nm = .ok vs) : dfGetCol (df ++ rest) nm = .ok vs := by
  unfold dfGetCol pyDictGet at h ⊢
  cases hf : df.find? (fun kv => kv.1 = nm) with
  | none => rw [hf] at h; cases h
  | some kv =>
    rw [hf] at h
    rw [List.find?_append, hf]
    simpa using h

/-- After replacing column `nm`, looking `nm` up finds the new values. -/
theorem find?_set_replace (nm : String) (vals : List (Option ℚ)) :
    ∀ df : Df, dfHasCol df nm = true →
      (df.map (fun c => if c.1 = nm then (nm, vals) else c)).find?
        (fun kv => kv.1 = nm) = some (nm, vals) := by
  intro df
  induction df with
  | nil => simp [dfHasCol]
  | cons c cs ihq =>
    intro h
    by_cases hc : c.1 = nm
    · rw [List.map_cons, if_pos hc]
      exact List.find?_cons_of_pos _ (by simp)
    · have hcs : dfHasCol cs nm = true := by
        simpa [dfHasCol, List.any_cons, hc] using h
      rw [List.map_cons, if_neg hc]
      rw [List.find?_cons_of_neg _ (by simp [hc])]
      exact ihq hcs

/-- Column assignment: looking the assigned name up yields the new values. -/
theorem dfGetCol_setCol_self (df : Df) (nm : String) (vals : List (Option ℚ)) :
    dfGetCol (dfSetCol df nm vals) nm = .ok vals := by
  unfold dfSetCol
  by_cases h : dfHasCol df nm
  · rw [if_pos h]
    unfold dfGetCol pyDictGet
    rw [find?_set_replace nm vals df h]
  · rw [if_neg h]
    unfold dfGetCol pyDictGet
    have hnone : df.find? (fun kv => kv.1 = nm) = none := by
      rw [List.find?_eq_none]
      intro kv hkv
      simp only [decide_eq_true_eq]
      intro he
      exact h (List.any_eq_true.mpr ⟨kv, hkv, by simp [he]⟩)
    rw [List.find?_append, hnone]
    simp [List.find?_cons_of_pos]

/-- Replacing column `nm` leaves lookups of any other name unchanged. -/
theorem find?_set_other (nm other : String) (vals : List (Option ℚ)) (hne : other ≠ nm) :
    ∀ df : Df, (df.map (fun c => if c.1 = nm then (nm, vals) else c)).find?
        (fun kv => kv.1 = other) = df.find? (fun kv => kv.1 = other) := by
  intro df
  induction df with
  | nil => rfl
  | cons c cs ihq =>
    by_cases hc : c.1 = nm
    · rw [List.map_cons, if_pos hc]
      rw [List.find?_cons_of_neg _ (by simp [Ne.symm hne]),
        List.find?_cons_of_neg _ (by simp [hc, Ne.symm hne])]
      exact ihq
    · rw [List.map_cons, if_neg hc]
      by_cases ho : c.1 = other
      · rw [List.find?_cons_of_pos _ (by simp [ho]), List.find?_cons_of_pos _ (by simp [ho])]
      · rw [List.find?_cons_of_neg _ (by simp [ho]), List.find?_cons_of_neg _ (by simp [ho])]
        exact ihq

/-- Column assignment leaves every other column's lookup unchanged. -/
theorem dfGetCol_setCol_other (df : Df) (nm other : String) (vals : List (Option ℚ))
    (hne : other ≠ nm) :
    dfGetCol (dfSetCol df nm vals) other = dfGetCol df other := by
  unfold dfSetCol
  by_cases h : dfHasCol df nm
  · rw [if_pos h]
    unfold dfGetCol pyDictGet
    rw [find?_set_other nm other vals hne df]
  · rw [if_neg h]
    unfold dfGetCol pyDictGet
    rw [List.find?_append]
    have hsingle : ([(nm, vals)] : Df).find? (fun kv => kv.1 = other) = none := by
      simp [Ne.symm hne]
    rw [hsingle]
    cases df.find? (fun kv => kv.1 = other) <;> simp

/-- `rollingMean` on a column of plain numbers: same length as the column,
`NaN` for the first `w-1` entries, and the trailing-window mean of entries
`i-w+1 .. i` from position `w-1` on. -/
theorem rollingMean_map_some (w : Nat) (us : List ℚ) :
    (rollingMean w (us.map some)).length = us.length ∧
    ∀ i, i < us.length →
      (rollingMean w (us.map some)).getD i none =
        if i + 1 < w then none
        else some (((us.drop (i + 1 - w)).take w).sum / w) := by
  constructor
  · simp [rollingMean]
  · intro i hi
    have hlen : i < (rollingMean w (us.map some)).length := by
      simpa [rollingMean] using hi
    rw [List.getD_eq_getElem _ _ hlen]
    unfold rollingMean
    rw [List.getElem_map, List.getElem_range]
    by_cases hw : w ≤ i + 1
    · rw [if_pos hw, if_neg (by omega : ¬i + 1 < w)]
      have hwin : ((us.map some).drop (i + 1 - w)).take w
          = ((us.drop (i + 1 - w)).take w).map some := by
        rw [← List.map_drop, ← List.map_take]
      have hall : (((us.map some).drop (i + 1 - w)).take w).all Option.isSome = true := by
        rw [hwin, List.all_eq_true]
        intro x hx
        obtain ⟨y, _, rfl⟩ := List.mem_map.mp hx
        rfl
      rw [if_pos hall, hwin, reduceOption_map_some_eq]
    · rw [if_neg hw, if_pos (by omega : i + 1 < w)]

/-- The `for i in window` loop of `get_sma_col`, when every generated column
name is fresh: it appends the rolling-mean columns in order. -/
theorem get_sma_col_append (col : String) (us : List ℚ) :
    ∀ (ws : List Nat) (df : Df),
      dfGetCol df col = .ok (us.map some) →
      (∀ v ∈ ws, dfHasCol df (smaName col v) = false) →
      (ws.map (smaName col)).Nodup →
      get_sma_col df col (.list ws) =
        .ok (df ++ ws.map (fun v => (smaName col v, rollingMean v (us.map some)))) := by
  intro ws
  induction ws with
  | nil =>
    intro df hcol _ _
    simp only [get_sma_col, windowList, List.foldlM_nil, List.map_nil, List.append_nil]
    rfl
  | cons v vs ihq =>
    intro df hcol hfresh hnodup
    have hset : dfSetCol df (smaName col v) (rollingMean v (us.map some))
        = df ++ [(smaName col v, rollingMean v (us.map some))] := by
      unfold dfSetCol
      rw [if_neg (by simp [hfresh v (by simp)])]
    have step : get_sma_col df col (.list (v :: vs)) =
        get_sma_col (df ++ [(smaName col v, rollingMean v (us.map some))]) col (.list vs) := by
      unfold get_sma_col windowList
      rw [List.foldlM_cons]
      unfold dfGetCol at hcol
      simp only [dfGetCol, hcol, hset, Bind.bind, Except.bind, Pure.pure, Except.pure]
    rw [step]
    have hcol' : dfGetCol (df ++ [(smaName col v, rollingMean v (us.map some))]) col
        = .ok (us.map some) := dfGetCol_append _ hcol
    have hfresh' : ∀ x ∈ vs,
        dfHasCol (df ++ [(smaName col v, rollingMean v (us.map some))]) (smaName col x)
          = false := by
      intro x hx
      have h1 : dfHasCol df (smaName col x) = false := hfresh x (by simp [hx])
      have h2 : smaName col v ≠ smaName col x := by
        intro he
        exact (List.nodup_cons.mp hnodup).1 (he ▸ List.mem_map_of_mem (smaName col) hx)
      unfold dfHasCol at h1 ⊢
      rw [List.any_append]
      simp [h1, h2]
    have hnodup' : (vs.map (smaName col)).Nodup := (List.nodup_cons.mp hnodup).2
    rw [ihq _ hcol' hfresh' hnodup']
    simp

/-! ### Claims C6 and C7 -/

/-- C6: `get_sma_col` appends a column named `{col}_SMA_{w}` holding the
trailing simple moving average: entry `i` is missing for `i < w-1` and equals
the mean of the column's entries `i-w+1 .. i` from `i = w-1` on; with a list
of windows, one such column is appended per window (in order). -/
theorem c6_get_sma_col_rolling (df : Df) (col : String) (us : List ℚ) (w : Nat)
    (ws : List Nat) (hcol : dfGetCol df col = .ok (us.map some)) (hw : 1 ≤ w) :
    (∃ out, get_sma_col df col (.int w) = .ok out ∧
      dfGetCol out (smaName col w) = .ok (rollingMean w (us.map some)) ∧
      (rollingMean w (us.map some)).length = us.length ∧
      ∀ i, i < us.length →
        (rollingMean w (us.map some)).getD i none =
          if i + 1 < w then none
          else some (((us.drop (i + 1 - w)).take w).sum / w)) ∧
    ((∀ v ∈ ws, dfHasCol df (smaName col v) = false) →
      (ws.map (smaName col)).Nodup →
      get_sma_col df col (.list ws) =
        .ok (df ++ ws.map (fun v => (smaName col v, rollingMean v (us.map some))))) := by
  constructor
  · refine ⟨dfSetCol df (smaName col w) (rollingMean w (us.map some)), ?_,
      dfGetCol_setCol_self _ _ _, (rollingMean_map_some w us).1,
      (rollingMean_map_some w us).2⟩
    unfold get_sma_col windowList
    rw [List.foldlM_cons]
    simp only [hcol, Bind.bind, Except.bind, List.foldlM_nil, Pure.pure, Except.pure]
  · intro hfresh hnodup
    exact get_sma_col_append col us ws df hcol hfresh hnodup

/-- C6 (witness) on the spec's instance: column `close = [10, 20, 30, 40]`
and window 3. -/
theorem c6_get_sma_col_rolling_witness :
    (∃ out, get_sma_col [("close", ([10, 20, 30, 40] : List ℚ).map some)] "close"
        (.int 3) = .ok out ∧
      dfGetCol out (smaName "close" 3) =
        .ok (rollingMean 3 (([10, 20, 30, 40] : List ℚ).map some)) ∧
      (rollingMean 3 (([10, 20, 30, 40] : List ℚ).map some)).length =
        ([10, 20, 30, 40] : List ℚ).length ∧
      ∀ i, i < ([10, 20, 30, 40] : List ℚ).length →
        (rollingMean 3 (([10, 20, 30, 40] : List ℚ).map some)).getD i none =
          if i + 1 < 3 then none
          else some (((([10, 20, 30, 40] : List ℚ).drop (i + 1 - 3)).take 3).sum / 3)) ∧
    ((∀ v ∈ [3], dfHasCol [("close", ([10, 20, 30, 40] : List ℚ).map some)]
        (smaName "close" v) = false) →
      (([3] : List Nat).map (smaName "close")).Nodup →
      get_sma_col [("close", ([10, 20, 30, 40] : List ℚ).map some)] "close"
          (.list [3]) =
        .ok ([("close", ([10, 20, 30, 40] : List ℚ).map some)] ++
          ([3] : List Nat).map (fun v =>
            (smaName "close" v, rollingMean v (([10, 20, 30, 40] : List ℚ).map some))))) :=
  c6_get_sma_col_rolling _ "close" [10, 20, 30, 40] 3 [3] rfl (by simp)

/-- The loop of `get_sma_col` leaves every column other than the generated
`{col}_SMA_{w}` names with its original lookup result. -/
theorem get_sma_col_frame (col nm : String) :
    ∀ (ws : List Nat) (df out : Df),
      ws.foldlM (fun new_df i => do
        let base ← dfGetCol new_df col
        return dfSetCol new_df (smaName col i) (rollingMean i base)) df = .ok out →
      (∀ v ∈ ws, nm ≠ smaName col v) →
      dfGetCol out nm = dfGetCol df nm := by
  intro ws
  induction ws with
  | nil =>
    intro df out hout _
    simp only [List.foldlM_nil] at hout
    cases hout
    rfl
  | cons v vs ihq =>
    intro df out hout hnm
    rw [List.foldlM_cons] at hout
    cases hbase : dfGetCol df col with
    | error e =>
      rw [hbase] at hout
      cases hout
    | ok base =>
      rw [hbase] at hout
      have hout' : vs.foldlM (fun new_df i => do
          let base ← dfGetCol new_df col
          return dfSetCol new_df (smaName col i) (rollingMean i base))
          (dfSetCol df (smaName col v) (rollingMean v base)) = .ok out := hout
      rw [ihq _ _ hout' (fun x hx => hnm x (by simp [hx]))]
      exact dfGetCol_setCol_other df (smaName col v) nm (rollingMean v base)
        (hnm v (by simp))

/-- C7 (amended): `get_sma_col` is pure — the input table is a value and is
returned untouched inside the new table — and every pre-existing column whose
name is not one of the generated `{col}_SMA_{w}` names has the same lookup
result in the output as in the input. -/
theorem c7_get_sma_col_frame (df : Df) (col : String) (window : PyIntOrList)
    (out : Df) (nm : String)
    (hout : get_sma_col df col window = .ok out)
    (hnm : ∀ v ∈ windowList window, nm ≠ smaName col v) :
    dfGetCol out nm = dfGetCol df nm := by
  unfold get_sma_col at hout
  exact get_sma_col_frame col nm (windowList window) df out hout hnm

/-- C7 (witness): on a plain one-column table no generated name collides, so
the original column is intact in the output. -/
theorem c7_get_sma_col_frame_witness :
    dfGetCol [("close", [some 1]), ("open", [some 7])] "open" =
      dfGetCol [("close", [some 1]), ("open", [some 7])] "open" ∧
    ∀ out, get_sma_col [("close", [some 1]), ("open", [some 7])] "close" (.int 1) =
        .ok out → dfGetCol out "open" =
        dfGetCol [("close", [some 1]), ("open", [some 7])] "open" :=
  ⟨rfl, fun out hout =>
    c7_get_sma_col_frame _ "close" (.int 1) out "open" hout
      (by intro v hv; simp only [windowList, List.mem_singleton] at hv; subst hv; decide)⟩

/-- C7 (counterexample): the claim as stated — every pre-existing column of
the returned table equals the corresponding input column — fails when a
pre-existing column is named like a generated one: on the table with columns
`close = [1]` and `close_SMA_1 = [99]`, `get_sma_col(df, 'close', 1)` assigns
`close_SMA_1`, replacing the `[99]` column with the rolling mean `[1]`.
(The caller's own table is still untouched — only the returned copy differs.) -/
theorem c7_counterexample :
    get_sma_col [("close", [some 1]), ("close_SMA_1", [some 99])] "close" (.int 1) =
      .ok [("close", [some 1]), ("close_SMA_1", [some 1])] ∧
    dfGetCol [("close", [some 1]), ("close_SMA_1", [some 1])] "close_SMA_1" ≠
      dfGetCol [("close", [some 1]), ("close_SMA_1", [some 99])] "close_SMA_1" := by
  constructor
  · have hname : smaName "close" 1 = "close_SMA_1" := rfl
    have hget : dfGetCol [("close", [some 1]), ("close_SMA_1", [some 99])] "close"
        = .ok [some 1] := rfl
    have hroll : rollingMean 1 [some (1 : ℚ)] = [some 1] := by
      norm_num [rollingMean, List.range_succ, List.reduceOption, List.filterMap_cons]
    have hset : dfSetCol [("close", [some 1]), ("close_SMA_1", [some 99])]
        "close_SMA_1" [some 1] = [("close", [some 1]), ("close_SMA_1", [some 1])] := rfl
    unfold get_sma_col windowList
    rw [List.foldlM_cons]
    simp only [hget, Bind.bind, Except.bind, List.foldlM_nil, Pure.pure, Except.pure,
      hname, hroll, hset]
  · have e1 : dfGetCol [("close", [some 1]), ("close_SMA_1", [some 1])] "close_SMA_1"
        = .ok [some (1 : ℚ)] := rfl
    have e2 : dfGetCol [("close", [some 1]), ("close_SMA_1", [some 99])] "close_SMA_1"
        = .ok [some (99 : ℚ)] := rfl
    rw [e1, e2]
    intro hc
    have h1 : ([some (1 : ℚ)] : List (Option ℚ)) = [some 99] := by injection hc
    have h2 : (some (1 : ℚ)) = some 99 := by injection h1
    have h3 : (1 : ℚ) = 99 := by injection h2
    norm_num at h3

/-! ## `src/qtrade.py`: the Questrade brokerage client

The HTTP transport is external: each operation receives the server's
response as an argument.  The mutable `self` of the Python class is threaded
explicitly: every method maps `(state, response)` to `(result, state')`,
where a raised exception leaves the state as it was at the raise (no field
of `self` is assigned before any `raise` in the source). -/

/-- The parsed OAuth token JSON
`{token_type, access_token, refresh_token, api_server, expires_in}`. -/
structure TokenJson where
  token_type : String
  access_token : String
  refresh_token : String
  api_server : String
  expires_in : Nat
  deriving DecidableEq, Repr

/-- A token-endpoint response: the raw body text, and the result of
`.json()` when the body parses to the expected shape (`none` when it is not
JSON or lacks the token fields). -/
structure TokenResponse where
  text : String
  json? : Option TokenJson
  deriving DecidableEq, Repr

/-- The fields of a `Questrade` instance (`qtrade.py` constructor plus the
attributes its methods assign).  The account-list JSON is opaque to the
client and carried as its serialized text. -/
structure QuestradeState where
  client_token : String
  session_headers : List (String × String)
  headers : Option (List (String × String))
  access_token : Option TokenJson
  accounts : Option String
  deriving DecidableEq, Repr

/-- `d[k] = v` on a string dict: replace in place or append. -/
def dictSet (d : List (String × String)) (k v : String) : List (String × String) :=
  if d.any (fun kv => kv.1 = k) then d.map (fun kv => if kv.1 = k then (k, v) else kv)
  else d ++ [(k, v)]

/-- Python `dict.update`: assign every binding of `upd` into `hs`. -/
def headersUpdate (hs upd : List (String × String)) : List (String × String) :=
  upd.foldl (fun acc kv => dictSet acc kv.1 kv.2) hs

/-- Reading one header back from a header dict. -/
def lookupHeader (hs : List (String × String)) (k : String) : Option String :=
  (hs.find? (fun kv => kv.1 = k)).map Prod.snd

/-- `Questrade.get_access_token(self)` on the token endpoint's `resp`:

    if resp.text == 'Bad Request': raise ValueError('Invalid client token')
    else: self.access_token = resp.json()
    self.headers = {"Authorization": token_type + " " + access_token}
    self.session.headers.update(self.headers)
    return self.access_token

The literal-body check runs before `.json()` is ever called. -/
def get_access_token (s : QuestradeState) (resp : TokenResponse) :
    Except PyErr TokenJson × QuestradeState :=
  if resp.text = "Bad Request" then
    (.error (.valueError "Invalid client token"), s)
  else
    match resp.json? with
    | none => (.error .jsonDecodeError, s)
    | some tok =>
      let hdrs := [("Authorization", tok.token_type ++ " " ++ tok.access_token)]
      (.ok tok,
        { s with
          access_token := some tok
          headers := some hdrs
          session_headers := headersUpdate s.session_headers hdrs })

/-- `Questrade.refresh_access_token(self)`: reads
`self.access_token['refresh_token']` (used only to build the request URL,
which is external I/O — `AttributeError` when the attribute was never set),
then proceeds exactly like `get_access_token` on the new response. -/
def refresh_access_token (s : QuestradeState) (resp : TokenResponse) :
    Except PyErr TokenJson × QuestradeState :=
  match s.access_token with
  | none => (.error (.attributeError "access_token"), s)
  | some _ =>
    if resp.text = "Bad Request" then
      (.error (.valueError "Invalid client token"), s)
    else
      match resp.json? with
      | none => (.error .jsonDecodeError, s)
      | some tok =>
        let hdrs := [("Authorization", tok.token_type ++ " " ++ tok.access_token)]
        (.ok tok,
          { s with
            access_token := some tok
            headers := some hdrs
            session_headers := headersUpdate s.session_headers hdrs })

/-- `Questrade.get_accounts(self)`: reads `self.access_token['api_server']`
to build the URL (external I/O), parses the response and caches it in
`self.accounts`. -/
def get_accounts (s : QuestradeState) (resp_json? : Option String) :
    Except PyErr String × QuestradeState :=
  match s.access_token with
  | none => (.error (.attributeError "access_token"), s)
  | some _ =>
    match resp_json? with
    | none => (.error .jsonDecodeError, s)
    | some accs => (.ok accs, { s with accounts := some accs })

/-- The attribute assignments at the top of `Questrade.__init__`. -/
def questradeInitState (client_token : String) : QuestradeState :=
  { client_token := client_token
    session_headers := []
    headers := none
    access_token := none
    accounts := none }

/-- `Questrade.__init__(self, client_token)`: assign the plain attributes,
then `self.get_access_token()` and `self.get_accounts()`; an exception in
either aborts construction. -/
def questrade_init (client_token : String) (tok_resp : TokenResponse)
    (acc_json? : Option String) : Except PyErr QuestradeState :=
  match get_access_token (questradeInitState client_token) tok_resp with
  | (.error e, _) => .error e
  | (.ok _, s1) =>
    match get_accounts s1 acc_json? with
    | (.error e, _) => .error e
    | (.ok _, s2) => .ok s2

/-- One element of the `symbols` array of a symbol-search response. -/
structure SymbolResult where
  symbol : String
  symbolId : Int
  deriving DecidableEq, Repr

/-- `Questrade.get_symbol_id(self, ticker)` on the search response's
`symbols` array:

    if resp['symbols'][0]['symbol'] == ticker:
        symbol_id = str(resp['symbols'][0]['symbolId'])
    else: raise ValueError('No exact match was found for the requested ticker')
-/
def get_symbol_id (resp_symbols : List SymbolResult) (ticker : String) :
    Except PyErr String :=
  match resp_symbols with
  | [] => .error (.indexError "list index out of range")
  | first :: _ =>
    if first.symbol = ticker then .ok (toString first.symbolId)
    else .error (.valueError "No exact match was found for the requested ticker")

/-- POSIX `os.path.join`. -/
def pyOsPathJoin (parts : List String) : String :=
  parts.foldl (fun acc s =>
    if s.startsWith "/" then s
    else if acc = "" ∨ acc.endsWith "/" then acc ++ s
    else acc ++ "/" ++ s) ""

/-- The URL `Questrade.get_candles(self, symbol_id, start_time, end_time,
time_interval, api_version)` requests:

    start_t = start_time + 'T00:00:00-05:00'
    end_t = end_time + 'T00:00:00-05:00'
    os.path.join(api_server, api_version, 'markets/candles')
      + f'/{symbol_id}?startTime={start_t}&endTime={end_t}&interval={time_interval}'
-/
def get_candles_url (api_server symbol_id start_time end_time
    time_interval api_version : String) : String :=
  let start_t := start_time ++ "T00:00:00-05:00"
  let end_t := end_time ++ "T00:00:00-05:00"
  pyOsPathJoin [api_server, api_version, "markets/candles"]
    ++ "/" ++ symbol_id ++ "?startTime=" ++ start_t ++ "&endTime=" ++ end_t
    ++ "&interval=" ++ time_interval

/-! ### Claims C3, C4, C9 and C10 -/

/-- C3: `get_symbol_id` accepts only an exact match on the first result's
`symbol`: when the first result's symbol differs from the ticker it raises
the `ValueError` the spec calls `NoExactMatchError` — regardless of any
later exact match in the array — and when it matches, it returns that
result's `symbolId` as a string. -/
theorem c3_get_symbol_id_first_only (first : SymbolResult)
    (rest : List SymbolResult) (ticker : String) :
    (first.symbol ≠ ticker →
      get_symbol_id (first :: rest) ticker =
        .error (.valueError "No exact match was found for the requested ticker")) ∧
    (first.symbol = ticker →
      get_symbol_id (first :: rest) ticker = .ok (toString first.symbolId)) := by
  constructor
  · intro h
    simp [get_symbol_id, h]
  · intro h
    simp [get_symbol_id, h]

/-- C3 (witness): the spec's instance — first result `'AAP'` for ticker
`'AAPL'` fails although the second result is exactly `'AAPL'`; and a
matching first result succeeds. -/
theorem c3_get_symbol_id_first_only_witness :
    get_symbol_id [⟨"AAP", 1⟩, ⟨"AAPL", 2⟩] "AAPL" =
      .error (.valueError "No exact match was found for the requested ticker") ∧
    get_symbol_id [⟨"AAPL", 2⟩] "AAPL" = .ok (toString (2 : Int)) :=
  ⟨(c3_get_symbol_id_first_only ⟨"AAP", 1⟩ [⟨"AAPL", 2⟩] "AAPL").1 (by decide),
   (c3_get_symbol_id_first_only ⟨"AAPL", 2⟩ [] "AAPL").2 rfl⟩

/-- C4: on a response whose body is the literal string `"Bad Request"`,
`get_access_token` — and likewise `refresh_access_token` once an access
token exists — raises the `ValueError('Invalid client token')` the spec
calls `AuthenticationError`, never a JSON-parse error (the body check runs
before `.json()`, so the result is the same whatever `json?` holds), and
the client state, stored token and session headers included, is returned
unchanged. -/
theorem c4_bad_request_auth_error (s : QuestradeState) (resp : TokenResponse)
    (htext : resp.text = "Bad Request") :
    get_access_token s resp = (.error (.valueError "Invalid client token"), s) ∧
    (s.access_token ≠ none →
      refresh_access_token s resp =
        (.error (.valueError "Invalid client token"), s)) := by
  constructor
  · simp [get_access_token, htext]
  · intro hsome
    cases htok : s.access_token with
    | none => exact absurd htok hsome
    | some tok => simp [refresh_access_token, htok, htext]

/-- C4 (witness): a state holding a token, and a `"Bad Request"` body that
is (as observed from the provider) not JSON at all (`json? = none`). -/
theorem c4_bad_request_auth_error_witness :
    get_access_token ⟨"ct", [], none, some ⟨"Bearer", "A", "R", "https://api", 1800⟩, none⟩
        ⟨"Bad Request", none⟩ =
      (.error (.valueError "Invalid client token"),
        ⟨"ct", [], none, some ⟨"Bearer", "A", "R", "https://api", 1800⟩, none⟩) ∧
    ((⟨"ct", [], none, some ⟨"Bearer", "A", "R", "https://api", 1800⟩, none⟩ :
        QuestradeState).access_token ≠ none →
      refresh_access_token
          ⟨"ct", [], none, some ⟨"Bearer", "A", "R", "https://api", 1800⟩, none⟩
          ⟨"Bad Request", none⟩ =
        (.error (.valueError "Invalid client token"),
          ⟨"ct", [], none, some ⟨"Bearer", "A", "R", "https://api", 1800⟩, none⟩)) :=
  c4_bad_request_auth_error
    ⟨"ct", [], none, some ⟨"Bearer", "A", "R", "https://api", 1800⟩, none⟩
    ⟨"Bad Request", none⟩ rfl

/-- C9: `get_candles` builds `startTime` and `endTime` by appending the
fixed suffix `T00:00:00-05:00` to the two `yyyy-mm-dd` strings exactly — the
URL decomposes around parameter values `start_time ++ suffix` and
`end_time ++ suffix`, and in each the date is recovered by taking its length
and the remainder is exactly the fixed suffix, whatever the inputs. -/
theorem c9_get_candles_url_suffix (api_server symbol_id start_time end_time
    time_interval api_version : String) :
    get_candles_url api_server symbol_id start_time end_time time_interval api_version =
      pyOsPathJoin [api_server, api_version, "markets/candles"]
        ++ "/" ++ symbol_id
        ++ "?startTime=" ++ (start_time ++ "T00:00:00-05:00")
        ++ "&endTime=" ++ (end_time ++ "T00:00:00-05:00")
        ++ "&interval=" ++ time_interval ∧
    (start_time ++ "T00:00:00-05:00").take start_time.length = start_time ∧
    (start_time ++ "T00:00:00-05:00").drop start_time.length = "T00:00:00-05:00" ∧
    (end_time ++ "T00:00:00-05:00").take end_time.length = end_time ∧
    (end_time ++ "T00:00:00-05:00").drop end_time.length = "T00:00:00-05:00" := by
  have htake : ∀ s t : String, (s ++ t).take s.length = s := by
    intro s t
    apply String.ext
    rw [String.data_take, String.data_append]
    exact List.take_left s.data t.data
  have hdrop : ∀ s t : String, (s ++ t).drop s.length = t := by
    intro s t
    apply String.ext
    rw [String.data_drop, String.data_append]
    exact List.drop_left s.data t.data
  exact ⟨rfl, htake _ _, hdrop _ _, htake _ _, hdrop _ _⟩

/-- C10: a successfully constructed `Questrade` instance is already
authenticated: `__init__` itself runs `get_access_token` and `get_accounts`,
so every state it can return holds the parsed token, an `Authorization`
session header equal to `token_type + " " + access_token`, and the cached
account list — and when the token exchange fails, construction fails with
that same error, so no unauthenticated instance is observable. -/
theorem c10_init_authenticated (client_token : String) (tok_resp : TokenResponse)
    (acc_json? : Option String) :
    (∀ s, questrade_init client_token tok_resp acc_json? = .ok s →
      ∃ tok, tok_resp.json? = some tok ∧
        s.access_token = some tok ∧
        s.headers = some [("Authorization", tok.token_type ++ " " ++ tok.access_token)] ∧
        lookupHeader s.session_headers "Authorization" =
          some (tok.token_type ++ " " ++ tok.access_token) ∧
        ∃ accs, acc_json? = some accs ∧ s.accounts = some accs) ∧
    (∀ e, (get_access_token (questradeInitState client_token) tok_resp).1 = .error e →
      questrade_init client_token tok_resp acc_json? = .error e) := by
  by_cases htext : tok_resp.text = "Bad Request"
  · have hga : get_access_token (questradeInitState client_token) tok_resp =
        (.error (.valueError "Invalid client token"), questradeInitState client_token) := by
      simp [get_access_token, htext]
    constructor
    · intro s hs
      rw [questrade_init, hga] at hs
      cases hs
    · intro e he
      rw [hga] at he
      rw [questrade_init, hga]
      cases he
      rfl
  · cases hjson : tok_resp.json? with
    | none =>
      have hga : get_access_token (questradeInitState client_token) tok_resp =
          (.error .jsonDecodeError, questradeInitState client_token) := by
        simp [get_access_token, htext, hjson]
      constructor
      · intro s hs
        rw [questrade_init, hga] at hs
        cases hs
      · intro e he
        rw [hga] at he
        rw [questrade_init, hga]
        cases he
        rfl
    | some tok =>
      have hga : get_access_token (questradeInitState client_token) tok_resp =
          (.ok tok,
            { client_token := client_token
              session_headers :=
                [("Authorization", tok.token_type ++ " " ++ tok.access_token)]
              headers :=
                some [("Authorization", tok.token_type ++ " " ++ tok.access_token)]
              access_token := some tok
              accounts := none }) := by
        simp [get_access_token, htext, hjson, questradeInitState,
          headersUpdate, dictSet]
      constructor
      · intro s hs
        rw [questrade_init, hga] at hs
        cases hacc : acc_json? with
        | none =>
          rw [hacc] at hs
          simp [get_accounts] at hs
        | some accs =>
          rw [hacc] at hs
          simp only [get_accounts] at hs
          cases hs
          exact ⟨tok, rfl, rfl, rfl, by simp [lookupHeader], accs, rfl, rfl⟩
      · intro e he
        rw [hga] at he
        cases he

/-- C10 (witness): a successful construction — token response parses to a
`Bearer` token, accounts fetch succeeds — yields a state carrying the token,
the `Authorization` header and the cached accounts. -/
theorem c10_init_authenticated_witness :
    ∃ tok, (⟨"token json body", some ⟨"Bearer", "A", "R", "https://api", 1800⟩⟩ :
        TokenResponse).json? = some tok ∧
      (⟨"ct", [("Authorization", "Bearer A")], some [("Authorization", "Bearer A")],
        some ⟨"Bearer", "A", "R", "https://api", 1800⟩,
        some "accounts"⟩ : QuestradeState).access_token = some tok ∧
      (⟨"ct", [("Authorization", "Bearer A")], some [("Authorization", "Bearer A")],
        some ⟨"Bearer", "A", "R", "https://api", 1800⟩,
        some "accounts"⟩ : QuestradeState).headers =
        some [("Authorization", tok.token_type ++ " " ++ tok.access_token)] ∧
      lookupHeader (⟨"ct", [("Authorization", "Bearer A")],
        some [("Authorization", "Bearer A")],
        some ⟨"Bearer", "A", "R", "https://api", 1800⟩,
        some "accounts"⟩ : QuestradeState).session_headers "Authorization" =
        some (tok.token_type ++ " " ++ tok.access_token) ∧
      ∃ accs, (some "accounts" : Option String) = some accs ∧
        (⟨"ct", [("Authorization", "Bearer A")], some [("Authorization", "Bearer A")],
          some ⟨"Bearer", "A", "R", "https://api", 1800⟩,
          some "accounts"⟩ : QuestradeState).accounts = some accs :=
  (c10_init_authenticated "ct"
    ⟨"token json body", some ⟨"Bearer", "A", "R", "https://api", 1800⟩⟩
    (some "accounts")).1
    ⟨"ct", [("Authorization", "Bearer A")], some [("Authorization", "Bearer A")],
      some ⟨"Bearer", "A", "R", "https://api", 1800⟩, some "accounts"⟩ rfl
